import Mathlib

/-!
Verification of the GC-100 client protocol engine (`gc_100/core.py`,
`gc_100/serial.py`) against its design specification.

Protocol text is modelled as `List Char` (Python `str`), raw network data
as `List Nat` (Python `bytes`, one `Nat` per byte).  Network reads are
modelled as the list of chunks successive `reader.read` calls deliver; an
exhausted chunk list (or an empty chunk) models the socket reporting
orderly closure (`read` returning `b''`).
-/

/-- Characters of a string literal (Python `str` as `List Char`). -/
def strChars (s : String) : List Char := s.data

/-- Bytes of an ASCII string (Python `bytes(s, 'utf8')` for strings in the
ASCII range, which is the protocol's alphabet: one byte per code point). -/
def strBytes (s : String) : List Nat := s.data.map Char.toNat

/-- Python `bytes.decode('ascii')`: succeeds iff every byte is < 128
(otherwise `UnicodeDecodeError`, modelled as `none`). -/
def decodeAscii (bs : List Nat) : Option (List Char) :=
  if bs.all (· < 128) then some (bs.map Char.ofNat) else none

/-- `buf.find(CR)` followed by the two slices `buf[0:idx]` / `buf[idx+1:]`
of `recv_response`: split a byte list at the first CR byte (13), returning
`none` when no CR is present. -/
def findCR : List Nat → Option (List Nat × List Nat)
  | [] => none
  | b :: bs =>
    if b = 13 then some ([], bs)
    else
      match findCR bs with
      | some (p, q) => some (b :: p, q)
      | none => none

/-- `GC100.recv_response` (core.py lines 208-236): scan the receive buffer
for a CR; if found, return the decoded prefix and retain the remainder; if
not, read another chunk and recurse; if the source reports closure (no more
chunks, or a zero-length read), return the decoded buffer and reset the
buffer to empty.  Result: `(frame, new buffer, remaining chunks)`; `none`
models `UnicodeDecodeError` from `.decode('ascii')`. -/
def recv_response : List Nat → List (List Nat) → Option (List Char × List Nat × List (List Nat))
  | buf, [] =>
    match findCR buf with
    | some (resp, keep) => (decodeAscii resp).map fun s => (s, keep, ([] : List (List Nat)))
    | none => (decodeAscii buf).map fun s => (s, ([] : List Nat), ([] : List (List Nat)))
  | buf, c :: cs =>
    match findCR buf with
    | some (resp, keep) => (decodeAscii resp).map fun s => (s, keep, c :: cs)
    | none =>
      if c = [] then (decodeAscii buf).map fun s => (s, ([] : List Nat), cs)
      else recv_response (buf ++ c) cs

/-- `n` successive calls to `recv_response`, threading the receive buffer
and the not-yet-delivered chunks through; collects the frames yielded. -/
def recvFrames : Nat → List Nat → List (List Nat) → Option (List (List Char) × List Nat × List (List Nat))
  | 0, buf, chunks => some ([], buf, chunks)
  | n + 1, buf, chunks =>
    match recv_response buf chunks with
    | none => none
    | some (f, b, c) =>
      match recvFrames n b c with
      | none => none
      | some (fs, b2, c2) => some (f :: fs, b2, c2)

/-- The wire image of a sequence of frames: each frame's bytes followed by
the CR terminator, concatenated. -/
def encodeFrames (frames : List (List Nat)) : List Nat :=
  (frames.map (· ++ [13])).flatten

/-- Python `str.split(sep)` with an explicit one-character separator:
splits at every occurrence, keeping empty tokens, so the result is always
non-empty. -/
def splitTok (sep : Char) : List Char → List (List Char)
  | [] => [[]]
  | c :: cs =>
    if c = sep then [] :: splitTok sep cs
    else
      match splitTok sep cs with
      | t :: ts => (c :: t) :: ts
      | [] => [[c]]

/-- `tokens[0]` of a `split` result (which is never empty). -/
def tok0 (sep : Char) (l : List Char) : List Char := (splitTok sep l).headD []

/-- Value of a decimal digit character. -/
def digitVal (c : Char) : Nat := c.toNat - 48

/-- Digits of a Python integer literal after the first digit: decimal
digits, with single underscores permitted between digits only. -/
def pyDigitsGo : Nat → List Char → Option Nat
  | acc, [] => some acc
  | acc, c :: cs =>
    if c.isDigit then pyDigitsGo (10 * acc + digitVal c) cs
    else if c = '_' then
      match cs with
      | [] => none
      | d :: ds => if d.isDigit then pyDigitsGo (10 * acc + digitVal d) ds else none
    else none

/-- Digit sequence of a Python integer literal: must start with a digit. -/
def pyIntDigits : List Char → Option Nat
  | [] => none
  | c :: cs => if c.isDigit then pyDigitsGo (digitVal c) cs else none

/-- ASCII whitespace stripped by Python `int()`. -/
def pySpace (c : Char) : Bool :=
  c = ' ' || c = '\t' || c = '\n' || c = '\x0b' || c = '\x0c' || c = '\r'

/-- Python `str.strip()` over ASCII whitespace. -/
def pyStrip (l : List Char) : List Char :=
  ((l.dropWhile pySpace).reverse.dropWhile pySpace).reverse

/-- Python `int(s)`: strip whitespace, optional sign, then a non-empty
digit sequence (underscore grouping allowed); `none` models `ValueError`. -/
def pyInt (l : List Char) : Option Int :=
  match pyStrip l with
  | '+' :: ds => (pyIntDigits ds).map fun n => (n : Int)
  | '-' :: ds => (pyIntDigits ds).map fun n => -(n : Int)
  | ds => (pyIntDigits ds).map fun n => (n : Int)

/-- Outcome of `GC100.error_check` on one decoded response frame:
pass through, raise `CommandError errno`, or raise a Python `IndexError` /
`ValueError` from the unguarded `tokens[1]` / `int(...)`. -/
inductive ErrCheck
  | ok
  | commandError (errno : Int)
  | indexError
  | valueError
  deriving DecidableEq, Repr

/-- `GC100.error_check` (core.py lines 100-109): split the frame on the
space character; if the first token is `unknowncommand`, raise
`CommandError(int(tokens[1]))` — where a missing second token is an
`IndexError` and a non-integer second token a `ValueError`. -/
def error_check (response : List Char) : ErrCheck :=
  match splitTok ' ' response with
  | [] => ErrCheck.ok
  | t0 :: rest =>
    if t0 = strChars "unknowncommand" then
      match rest with
      | [] => ErrCheck.indexError
      | t1 :: _ =>
        match pyInt t1 with
        | some n => ErrCheck.commandError n
        | none => ErrCheck.valueError
    else ErrCheck.ok

/-- Whether an `error_check` outcome is a raised `CommandError`. -/
def isCommandError : ErrCheck → Bool
  | ErrCheck.commandError _ => true
  | _ => false

/-- `CommandError.ERR_TEXT` (core.py lines 24-43): the fixed error-code
description table; `none` models `dict.get` returning Python `None` for an
unassigned code. -/
def ERR_TEXT : Int → Option String
  | 1 => some "Timeout: CR not received."
  | 2 => some "Invalid module address (getversion)"
  | 3 => some "Invalid module address (does not exist)"
  | 4 => some "Invalid connector address"
  | 5 => some "Attempt to send IR command on 'sensor-in' connector address 1"
  | 6 => some "Attempt to send IR command on 'sensor-in' connector address 2"
  | 7 => some "Attempt to send IR command on 'sensor-in' connector address 3"
  | 8 => some "Offset is set to even transition number (IR command)"
  | 9 => some "Exceeded maximum IR transitions (> 256)"
  | 10 => some "Non-even number of IR transitions"
  | 11 => some "Contact-closure command sent to non-relay module"
  | 12 => some "Missing CR"
  | 13 => some "State request to invalid or non-sensor IR address"
  | 14 => some "Unsupported command"
  | 15 => some "Exceeded maximum IR transitions (SM_IR_INPROCESS)"
  | 16 => some "Non-even number of IR transitions"
  | 21 => some "IR command sent to non-IR module"
  | 23 => some "Command not supported by module type"
  | _ => none

/-- `CommandError.__str__` (core.py lines 48-50): the f-string
`f"({errno}) {text}"`, where an absent table entry interpolates Python
`None` as the literal text `None`. -/
def commandErrorStr (errno : Int) : String :=
  "(" ++ toString errno ++ ") " ++
    (match ERR_TEXT errno with
     | some t => t
     | none => "None")

/-- Outcome of `GC100.parse_state` (core.py lines 182-193): the parsed
dict, the empty dict `{}` for a frame whose first token is not `state`, or
a raised `IndexError` / `ValueError`. -/
inductive PState
  | dict (addr : List Char) (state : Int)
  | emptyDict
  | exn
  deriving DecidableEq, Repr

/-- `GC100.parse_state`: split on commas; return `{}` unless the first
token is `state`; otherwise build the dict from `tokens[1]` and
`int(tokens[2])` (unguarded, hence `exn` on short or non-integer input). -/
def parse_state (state : List Char) : PState :=
  match splitTok ',' state with
  | [] => PState.exn
  | t0 :: rest =>
    if t0 = strChars "state" then
      match rest with
      | t1 :: t2 :: _ =>
        match pyInt t2 with
        | some n => PState.dict t1 n
        | none => PState.exn
      | _ => PState.exn
    else PState.emptyDict

/-- Outcome of `GC100.raw_request` for a single command (core.py lines
261-285), as a function of the device's reply bytes: the returned response
frame, a raised `CommandError`, a raised `IndexError`/`ValueError` from
`error_check`, or a decode error from the framer. -/
inductive ReqResult
  | response (frame : List Char)
  | cmdErr (errno : Int)
  | pyExn
  | decodeErr
  deriving DecidableEq, Repr

/-- `GC100.raw_request` response handling: with the receive buffer reset
to empty, pull one frame from `recv_response` over the reply chunks, run
`error_check` on it, and return it if no error is detected. -/
def raw_request (reply : List (List Nat)) : ReqResult :=
  match recv_response [] reply with
  | none => ReqResult.decodeErr
  | some (frame, _, _) =>
    match error_check frame with
    | ErrCheck.ok => ReqResult.response frame
    | ErrCheck.commandError n => ReqResult.cmdErr n
    | ErrCheck.indexError => ReqResult.pyExn
    | ErrCheck.valueError => ReqResult.pyExn

/-- The command bytes `GC100.setstate` sends (core.py lines 391-402):
`f"setstate,{addr},{1 if active else 0}"` encoded and terminated with CR. -/
def setstate_command (addr : String) (active : Bool) : List Nat :=
  strBytes ("setstate," ++ addr ++ "," ++ (if active then "1" else "0")) ++ [13]

/-- `GC100.setstate` as a whole session: the bytes written to the command
connection, and the response `raw_request` yields for the device's reply. -/
def setstate (addr : String) (active : Bool) (reply : List (List Nat)) :
    List Nat × ReqResult :=
  (setstate_command addr active, raw_request reply)

/-- Outcome of the `GC100.getdevices` read loop (core.py lines 315-322):
the accumulated device list on the end marker, a raised `CommandError`
(no partial list escapes), a raised `IndexError`/`ValueError`, or the
frame stream running dry before any end marker (the loop would keep
spinning on a closed socket). -/
inductive DevOut
  | ok (devices : List (List Char))
  | cmdError (errno : Int)
  | pyExn
  | noEnd
  deriving DecidableEq, Repr

/-- `GC100.getdevices` read loop: for each incoming frame, run
`error_check` (a raise aborts the whole loop); then if `tokens[0]` is
`endlistdevices` stop and return the accumulated list, if it is `device`
append the whole frame, and otherwise skip the frame. -/
def getdevices_loop : List (List Char) → List (List Char) → DevOut
  | _, [] => DevOut.noEnd
  | devices, f :: fs =>
    match error_check f with
    | ErrCheck.commandError n => DevOut.cmdError n
    | ErrCheck.indexError => DevOut.pyExn
    | ErrCheck.valueError => DevOut.pyExn
    | ErrCheck.ok =>
      if tok0 ',' f = strChars "endlistdevices" then DevOut.ok devices
      else if tok0 ',' f = strChars "device" then getdevices_loop (devices ++ [f]) fs
      else getdevices_loop devices fs

/-- Whether a frame's first comma-separated token is `device`. -/
def isDeviceFrame (f : List Char) : Bool := tok0 ',' f = strChars "device"

/-- Whether a frame's first comma-separated token is `endlistdevices`. -/
def isEndFrame (f : List Char) : Bool := tok0 ',' f = strChars "endlistdevices"

/-- `Serial` channel state (serial.py): whether the stream reader `_r` and
stream writer `_w` are present (`None` modelled as `false`).  `connect`
and `disconnect` always set and clear the two together. -/
structure SerialState where
  r : Bool
  w : Bool
  deriving DecidableEq, Repr

/-- `Serial.is_connected` (serial.py lines 48-49): `self._w is not None`. -/
def SerialState.is_connected (st : SerialState) : Bool := st.w

/-- Whether `writer.close()` / `wait_closed()` raise when a disconnect
actually closes the connection — an external event fed to the model. -/
inductive CloseOut
  | closeOk
  | closeExn
  deriving DecidableEq, Repr

/-- `Serial.disconnect` (serial.py lines 32-41): a no-op when `_w` is
`None`; otherwise close and await closure (which may itself raise), with a
`finally` that unconditionally clears both `_r` and `_w`.  Returns
(whether an exception propagates, the resulting state). -/
def SerialState.disconnect (st : SerialState) (cl : CloseOut) : Bool × SerialState :=
  if st.w = false then (false, st)
  else (cl = CloseOut.closeExn, ⟨false, false⟩)

/-- Outcome of one `reader.read(size)` call — an external event: the bytes
delivered (empty meaning the peer performed an orderly close), or an I/O
exception raised by the read. -/
inductive ReadOut
  | readBytes (data : List Nat)
  | readExn
  deriving DecidableEq, Repr

/-- What `Serial.recv` does for the caller: return data, return Python
`None` (the fall-through after an orderly peer close), raise the
"not connected" `SerialError`, or re-raise an I/O exception
(`fromClose` tells whether the propagated exception came from the close
inside `disconnect` rather than from the read itself). -/
inductive RecvRes
  | value (data : List Nat)
  | noValue
  | notConnectedErr
  | ioErr (fromClose : Bool)
  deriving DecidableEq, Repr

/-- `Serial.recv` (serial.py lines 56-69): raise `SerialError` if `_r` is
`None`; otherwise read.  Non-empty data is returned as-is.  Zero-length
data (peer closed) triggers `disconnect` and an implicit `return None`;
if that close raises, the handler disconnects again (now a no-op) and
re-raises.  Any read exception triggers `disconnect` and is re-raised
(a close exception from that disconnect propagating instead). -/
def SerialState.recv (st : SerialState) (size : Nat) (out : ReadOut) (cl : CloseOut) :
    RecvRes × SerialState :=
  if st.r = false then (RecvRes.notConnectedErr, st)
  else
    match out with
    | ReadOut.readBytes data =>
      if data = [] then
        match st.disconnect cl with
        | (true, st1) =>
          match st1.disconnect cl with
          | (_, st2) => (RecvRes.ioErr true, st2)
        | (false, st1) => (RecvRes.noValue, st1)
      else (RecvRes.value data, st)
    | ReadOut.readExn =>
      match st.disconnect cl with
      | (raised, st1) => (RecvRes.ioErr raised, st1)

/-- State of the command-channel scheduler (core.py lines 93-98, 239-285):
one `GC100` instance with its `asyncio.Lock`, and any number of
cooperatively scheduled command operations (`raw_command`, `raw_request`,
`getdevices`).  `pc i` counts the atomic suspension-delimited steps task
`i` has completed of the common critical-section shape:
step 0 acquires `_cmd_lock`, step 1 is `open_connection`, step 2 the
write/read body, step 3 `close`+`wait_closed`, step 4 the cool-down
`sleep(0.01)` (still inside the `async with`), step 5 releases the lock.
So `pc i ∈ {2, 3}` exactly while task `i` holds an open command-port
socket, and `pc i = 6` means its connection is fully closed and its
cool-down has elapsed. -/
structure CmdState where
  pc : Nat → Nat
  owner : Option Nat

/-- Initial scheduler state: no task started, lock free. -/
def cmdInit : CmdState := ⟨fun _ => 0, none⟩

/-- One cooperative step of some task: acquiring the free lock, advancing
through the body while holding it (open, write/read, close, cool-down), or
releasing the lock at the end of the `async with` block.  Any task may be
scheduled at any suspension point. -/
inductive cmdStep : CmdState → CmdState → Prop
  | acquire (s : CmdState) (i : Nat) :
      s.pc i = 0 → s.owner = none →
      cmdStep s ⟨fun k => if k = i then 1 else s.pc k, some i⟩
  | advance (s : CmdState) (i : Nat) :
      1 ≤ s.pc i → s.pc i ≤ 4 →
      cmdStep s ⟨fun k => if k = i then s.pc i + 1 else s.pc k, s.owner⟩
  | release (s : CmdState) (i : Nat) :
      s.pc i = 5 → s.owner = some i →
      cmdStep s ⟨fun k => if k = i then 6 else s.pc k, none⟩

/-- Scheduler states reachable from the initial state. -/
inductive cmdReach : CmdState → Prop
  | init : cmdReach cmdInit
  | step {s t : CmdState} : cmdReach s → cmdStep s t → cmdReach t

/-- Task `i` currently holds an open command-port connection. -/
def connOpen (s : CmdState) (i : Nat) : Prop := s.pc i = 2 ∨ s.pc i = 3

/-! ## Framer lemmas -/

theorem findCR_append (f q : List Nat) (hf : 13 ∉ f) :
    findCR (f ++ 13 :: q) = some (f, q) := by
  induction f with
  | nil => simp [findCR]
  | cons a f ih =>
    have ha : a ≠ 13 := fun h => hf (by simp [h])
    have hf2 : 13 ∉ f := fun h => hf (List.mem_cons_of_mem _ h)
    simp [findCR, ha, ih hf2]

theorem findCR_eq_none (bs : List Nat) (h : 13 ∉ bs) : findCR bs = none := by
  induction bs with
  | nil => rfl
  | cons a bs ih =>
    have ha : a ≠ 13 := fun hh => h (by simp [hh])
    have h2 : 13 ∉ bs := fun hh => h (List.mem_cons_of_mem _ hh)
    simp [findCR, ha, ih h2]

theorem buffer_decomp (f : List Nat) :
    ∀ (buf X rest : List Nat), 13 ∉ f → 13 ∈ buf →
      buf ++ X = f ++ 13 :: rest →
      ∃ t, buf = f ++ 13 :: t ∧ t ++ X = rest := by
  induction f with
  | nil =>
    intro buf X rest _ hmem heq
    cases buf with
    | nil => simp at hmem
    | cons b bs =>
      simp only [List.cons_append, List.nil_append, List.cons.injEq] at heq
      exact ⟨bs, by simp [heq.1], heq.2⟩
  | cons a f ih =>
    intro buf X rest hf hmem heq
    cases buf with
    | nil => simp at hmem
    | cons b bs =>
      have ha : a ≠ 13 := fun h => hf (by simp [h])
      simp only [List.cons_append, List.cons.injEq] at heq
      obtain ⟨hb, heq2⟩ := heq
      have hmem2 : 13 ∈ bs := by
        rcases List.mem_cons.mp hmem with h | h
        · exact absurd (h ▸ hb) (Ne.symm ha)
        · exact h
      have hf2 : 13 ∉ f := fun h => hf (List.mem_cons_of_mem _ h)
      obtain ⟨t, ht, htX⟩ := ih bs X rest hf2 hmem2 heq2
      exact ⟨t, by simp [hb, ht], htX⟩

theorem recv_response_frame :
    ∀ (chunks : List (List Nat)) (buf f rest : List Nat),
      13 ∉ f → f.all (· < 128) → (∀ c ∈ chunks, c ≠ []) →
      buf ++ chunks.flatten = f ++ 13 :: rest →
      ∃ b c, recv_response buf chunks = some (f.map Char.ofNat, b, c) ∧
        b ++ c.flatten = rest ∧ (∀ d ∈ c, d ≠ []) := by
  intro chunks
  induction chunks with
  | nil =>
    intro buf f rest hf hascii _ heq
    simp only [List.flatten_nil, List.append_nil] at heq
    subst heq
    refine ⟨rest, [], ?_, by simp, by simp⟩
    simp [recv_response, findCR_append f rest hf, decodeAscii, hascii]
  | cons c cs ih =>
    intro buf f rest hf hascii hne heq
    by_cases hmem : (13 : Nat) ∈ buf
    · obtain ⟨t, hb, ht⟩ := buffer_decomp f buf (List.flatten (c :: cs)) rest hf hmem heq
      subst hb
      refine ⟨t, c :: cs, ?_, ht, hne⟩
      simp [recv_response, findCR_append f t hf, decodeAscii, hascii]
    · have hnone := findCR_eq_none buf hmem
      have hc : c ≠ [] := hne c (by simp)
      have heq2 : (buf ++ c) ++ List.flatten cs = f ++ 13 :: rest := by
        simpa [List.append_assoc] using heq
      have hne2 : ∀ d ∈ cs, d ≠ [] := fun d hd => hne d (by simp [hd])
      obtain ⟨b2, c2, hrec, hb2, hc2⟩ := ih (buf ++ c) f rest hf hascii hne2 heq2
      refine ⟨b2, c2, ?_, hb2, hc2⟩
      simpa [recv_response, hnone, hc] using hrec

theorem recvFrames_yield :
    ∀ (frames : List (List Nat)) (buf : List Nat) (chunks : List (List Nat)) (rest : List Nat),
      (∀ f ∈ frames, 13 ∉ f ∧ f.all (· < 128)) →
      (∀ c ∈ chunks, c ≠ []) →
      buf ++ chunks.flatten = encodeFrames frames ++ rest →
      ∃ b c, recvFrames frames.length buf chunks =
          some (frames.map (List.map Char.ofNat), b, c) ∧
        b ++ c.flatten = rest ∧ (∀ d ∈ c, d ≠ []) := by
  intro frames
  induction frames with
  | nil =>
    intro buf chunks rest _ hne heq
    exact ⟨buf, chunks, rfl, by simpa [encodeFrames] using heq, hne⟩
  | cons f fs ih =>
    intro buf chunks rest hfr hne heq
    have hf := hfr f (by simp)
    have hfs : ∀ g ∈ fs, 13 ∉ g ∧ g.all (· < 128) := fun g hg => hfr g (by simp [hg])
    have heq2 : buf ++ chunks.flatten = f ++ 13 :: (encodeFrames fs ++ rest) := by
      simpa [encodeFrames, List.append_assoc] using heq
    obtain ⟨b1, c1, h1, hb1, hc1⟩ :=
      recv_response_frame chunks buf f (encodeFrames fs ++ rest) hf.1 hf.2 hne heq2
    obtain ⟨b2, c2, h2, hb2, hc2⟩ := ih b1 c1 rest hfs hc1 hb1
    refine ⟨b2, c2, ?_, hb2, hc2⟩
    simp [recvFrames, h1, h2]

/-- C1: for every sequence of CR-terminated frames and every chunking of the
concatenated bytes into the non-empty pieces delivered by successive network
reads, repeated calls to `recv_response` yield exactly the frames in order,
each decoded as ASCII with the CR terminator stripped, and the bytes after
the last complete frame are retained (receive buffer plus undelivered
chunks) for the next call. -/
theorem recv_response_framer_correct
    (frames : List (List Nat)) (chunks : List (List Nat)) (rest : List Nat)
    (hframes : ∀ f ∈ frames, 13 ∉ f ∧ f.all (· < 128))
    (hchunks : ∀ c ∈ chunks, c ≠ [])
    (hbytes : chunks.flatten = encodeFrames frames ++ rest) :
    ∃ b c, recvFrames frames.length [] chunks =
        some (frames.map (List.map Char.ofNat), b, c) ∧
      b ++ c.flatten = rest ∧ (∀ d ∈ c, d ≠ []) :=
  recvFrames_yield frames [] chunks rest hframes hchunks (by simpa using hbytes)

theorem recv_response_framer_correct_witness :
    ∃ b c,
      recvFrames 2 []
          [strBytes "state,1:", strBytes "1,1" ++ 13 :: strBytes "device",
            strBytes ",1,IR" ++ 13 :: strBytes "par"] =
        some ([strChars "state,1:1,1", strChars "device,1,IR"], b, c) ∧
      b ++ List.flatten c = strBytes "par" ∧ (∀ d ∈ c, d ≠ []) := by
  exact recv_response_framer_correct
    [strBytes "state,1:1,1", strBytes "device,1,IR"]
    [strBytes "state,1:", strBytes "1,1" ++ 13 :: strBytes "device",
      strBytes ",1,IR" ++ 13 :: strBytes "par"]
    (strBytes "par") (by decide) (by decide) (by decide)

/-- C7: when the byte source signals closure while no complete CR-terminated
frame is buffered, `recv_response` returns the remaining buffer contents as
a final (possibly empty, ASCII-decoded) frame and resets the buffer to
empty; in particular zero bytes followed by closure yield one empty frame
(see the witness). -/
theorem recv_response_closure (buf : List Nat)
    (hnoCR : 13 ∉ buf) (hascii : buf.all (· < 128)) :
    recv_response buf [] = some (buf.map Char.ofNat, [], []) := by
  simp [recv_response, findCR_eq_none buf hnoCR, decodeAscii, hascii]

theorem recv_response_closure_witness :
    recv_response [] [] = some ([], [], []) :=
  recv_response_closure [] (by decide) (by decide)

/-! ## Error classifier -/

/-- C2 (counterexample): the bare frame `unknowncommand` has first
space-separated token `unknowncommand`, yet `error_check` raises an
`IndexError` (from the unguarded `tokens[1]`), not a `CommandError` — so
"raises CommandError iff the first token equals the sentinel" fails. -/
theorem error_check_bare_sentinel :
    (splitTok ' ' (strChars "unknowncommand")).headD [] = strChars "unknowncommand" ∧
    error_check (strChars "unknowncommand") = ErrCheck.indexError ∧
    isCommandError (error_check (strChars "unknowncommand")) = false := by decide

/-- C2 (amended): `error_check` raises `CommandError n` iff the frame's
first space-separated token is `unknowncommand` and a second token exists
whose text parses as the integer `n`; in particular `unknowncommand 12`
raises `CommandError` with code 12, whose description text is
`Missing CR`, and `state,1:1,1` passes through unchanged. -/
theorem error_check_commandError_iff :
    (∀ (response : List Char) (n : Int),
        error_check response = ErrCheck.commandError n ↔
          ∃ t1 ts, splitTok ' ' response = strChars "unknowncommand" :: t1 :: ts ∧
            pyInt t1 = some n) ∧
    error_check (strChars "unknowncommand 12") = ErrCheck.commandError 12 ∧
    ERR_TEXT 12 = some "Missing CR" ∧
    commandErrorStr 12 = "(12) Missing CR" ∧
    error_check (strChars "state,1:1,1") = ErrCheck.ok := by
  refine ⟨?_, by decide, by decide, by decide, by decide⟩
  intro response n
  unfold error_check
  cases h : splitTok ' ' response with
  | nil => simp [h]
  | cons t0 rest =>
    by_cases h0 : t0 = strChars "unknowncommand"
    · subst h0
      cases rest with
      | nil => simp
      | cons t1 ts =>
        cases hp : pyInt t1 with
        | none => simp [hp]
        | some m => simp [hp, eq_comm]
    · simp [h0]

/-- C9 (counterexample): for the unassigned error code 17 the `ERR_TEXT`
table has no entry, and `CommandError.__str__` renders `(17) None`
(Python's `None` interpolated), not the text `unknown text` the claim
asserts. -/
theorem err_text_gap_not_unknown_text :
    ERR_TEXT 17 = none ∧ commandErrorStr 17 = "(17) None" ∧
    commandErrorStr 17 ≠ "(17) unknown text" := by decide

/-- C9 (amended): the codes 17, 18, 19, 20 and 22 in the documented range
1-23 are unassigned — `ERR_TEXT` has no entry for them — and for any such
gap code the `CommandError` description renders as `(<code>) None`. -/
theorem err_text_gap_renders_none :
    (∀ n : Int, ERR_TEXT n = none →
        commandErrorStr n = "(" ++ toString n ++ ") None") ∧
    ERR_TEXT 17 = none ∧ ERR_TEXT 18 = none ∧ ERR_TEXT 19 = none ∧
    ERR_TEXT 20 = none ∧ ERR_TEXT 22 = none := by
  refine ⟨?_, by decide, by decide, by decide, by decide, by decide⟩
  intro n h
  simp only [commandErrorStr, h]
  rw [String.append_assoc]
  rfl

theorem err_text_gap_renders_none_witness :
    commandErrorStr 20 = "(" ++ toString (20 : Int) ++ ") None" :=
  err_text_gap_renders_none.1 20 (by decide)

/-- C10: a frame whose first space-separated token is `unknowncommand` but
which has no second token, or whose second token does not parse as a
Python integer, makes `error_check` raise an `IndexError` or `ValueError`
(not a `CommandError`, and it does not pass through). -/
theorem error_check_malformed_sentinel (response : List Char) (rest : List (List Char))
    (hsplit : splitTok ' ' response = strChars "unknowncommand" :: rest)
    (hbad : rest = [] ∨ ∃ t1 ts, rest = t1 :: ts ∧ pyInt t1 = none) :
    error_check response = ErrCheck.indexError ∨
      error_check response = ErrCheck.valueError := by
  unfold error_check
  rw [hsplit]
  rcases hbad with h | ⟨t1, ts, h, hp⟩
  · subst h; simp
  · subst h; simp [hp]

theorem error_check_malformed_sentinel_witness :
    error_check (strChars "unknowncommand") = ErrCheck.indexError ∨
      error_check (strChars "unknowncommand") = ErrCheck.valueError :=
  error_check_malformed_sentinel (strChars "unknowncommand") [] (by decide) (Or.inl rfl)

/-! ## getdevices loop -/

theorem getdevices_loop_cons_ok (acc : List (List Char)) (f : List Char)
    (fs : List (List Char)) (hok : error_check f = ErrCheck.ok) :
    getdevices_loop acc (f :: fs) =
      if tok0 ',' f = strChars "endlistdevices" then DevOut.ok acc
      else if tok0 ',' f = strChars "device" then getdevices_loop (acc ++ [f]) fs
      else getdevices_loop acc fs := by
  simp [getdevices_loop, hok]

theorem getdevices_loop_append (pre : List (List Char)) :
    ∀ (acc tail : List (List Char)),
      (∀ f ∈ pre, error_check f = ErrCheck.ok ∧ isEndFrame f = false) →
      getdevices_loop acc (pre ++ tail) =
        getdevices_loop (acc ++ pre.filter isDeviceFrame) tail := by
  induction pre with
  | nil => intro acc tail _; simp
  | cons f fs ih =>
    intro acc tail h
    have hf := h f (by simp)
    have hfs : ∀ g ∈ fs, error_check g = ErrCheck.ok ∧ isEndFrame g = false :=
      fun g hg => h g (by simp [hg])
    have hnotend : ¬ tok0 ',' f = strChars "endlistdevices" := by
      simpa [isEndFrame] using hf.2
    by_cases hdev : tok0 ',' f = strChars "device"
    · have hd : isDeviceFrame f = true := by simp [isDeviceFrame, hdev]
      rw [List.cons_append, getdevices_loop_cons_ok acc f (fs ++ tail) hf.1,
        if_neg hnotend, if_pos hdev, ih (acc ++ [f]) tail hfs]
      simp [List.filter_cons, hd, List.append_assoc]
    · have hd : isDeviceFrame f = false := by simp [isDeviceFrame, hdev]
      rw [List.cons_append, getdevices_loop_cons_ok acc f (fs ++ tail) hf.1,
        if_neg hnotend, if_neg hdev, ih acc tail hfs]
      simp [List.filter_cons, hd]

/-- C3: the `getdevices` read loop consumes frames until the list-end
marker `endlistdevices`; every earlier frame whose first comma-separated
token is `device` is accumulated, in arrival order, into the returned
list; and if a frame before the end marker is a device error frame, the
whole operation raises `CommandError` and no partial list reaches the
caller (the `DevOut.cmdError` outcome carries no device list). -/
theorem getdevices_collects_until_end :
    (∀ (pre : List (List Char)) (endf : List Char) (rest : List (List Char)),
        (∀ f ∈ pre, error_check f = ErrCheck.ok ∧ isEndFrame f = false) →
        error_check endf = ErrCheck.ok → isEndFrame endf = true →
        getdevices_loop [] (pre ++ endf :: rest) =
          DevOut.ok (pre.filter isDeviceFrame)) ∧
    (∀ (pre : List (List Char)) (e : List Char) (rest : List (List Char)) (n : Int),
        (∀ f ∈ pre, error_check f = ErrCheck.ok ∧ isEndFrame f = false) →
        error_check e = ErrCheck.commandError n →
        getdevices_loop [] (pre ++ e :: rest) = DevOut.cmdError n) := by
  constructor
  · intro pre endf rest hpre hok hend
    rw [getdevices_loop_append pre [] (endf :: rest) hpre]
    have hend2 : tok0 ',' endf = strChars "endlistdevices" := by
      simpa [isEndFrame] using hend
    simp [getdevices_loop, hok, hend2]
  · intro pre e rest n hpre he
    rw [getdevices_loop_append pre [] (e :: rest) hpre]
    simp [getdevices_loop, he]

theorem getdevices_collects_until_end_witness :
    getdevices_loop []
        [strChars "device,1,IR", strChars "device,2,RELAY", strChars "endlistdevices"] =
      DevOut.ok [strChars "device,1,IR", strChars "device,2,RELAY"] := by
  exact getdevices_collects_until_end.1
    [strChars "device,1,IR", strChars "device,2,RELAY"]
    (strChars "endlistdevices") [] (by decide) (by decide) (by decide)

/-! ## setstate -/

/-- C8: `setstate` for connector address `3:1` with `active = true` writes
exactly the bytes of `setstate,3:1,1` followed by CR on the command
connection, and — the device echoing the state frame `state,3:1,1` — the
returned response is that frame, which `parse_state` parses to the dict
with `addr = "3:1"` and `state = 1` (the method returns the raw frame and
its docstring directs callers to `parse_state`). -/
theorem setstate_sends_and_parses :
    setstate "3:1" true [strBytes "state,3:1,1" ++ [13]] =
      (strBytes "setstate,3:1,1" ++ [13],
        ReqResult.response (strChars "state,3:1,1")) ∧
    parse_state (strChars "state,3:1,1") = PState.dict (strChars "3:1") 1 := by decide

/-! ## Serial channel -/

/-- C5: on a well-formed channel (reader and writer present together),
`Serial.recv` fails with the "not connected" `SerialError` whenever the
channel is disconnected; when connected it returns the (up to `size`)
bytes the read delivers; on a zero-length read (orderly peer close) it
auto-disconnects and returns Python `None` rather than raising; and on any
other I/O exception during the read it auto-disconnects before re-raising
that exception to the caller. -/
theorem serial_recv_cases (st : SerialState) (size : Nat) (out : ReadOut) (cl : CloseOut)
    (hwf : st.r = st.w) :
    (st.w = false → st.recv size out cl = (RecvRes.notConnectedErr, st)) ∧
    (∀ data, st.w = true → data ≠ [] → data.length ≤ size → out = ReadOut.readBytes data →
        st.recv size out cl = (RecvRes.value data, st)) ∧
    (st.w = true → out = ReadOut.readBytes [] → cl = CloseOut.closeOk →
        st.recv size out cl = (RecvRes.noValue, ⟨false, false⟩)) ∧
    (st.w = true → out = ReadOut.readExn → cl = CloseOut.closeOk →
        st.recv size out cl = (RecvRes.ioErr false, ⟨false, false⟩)) := by
  obtain ⟨r, w⟩ := st
  simp only at hwf
  subst hwf
  refine ⟨?_, ?_, ?_, ?_⟩
  · intro hw
    subst hw
    cases out <;> rfl
  · intro data hw hne _ hout
    subst hw; subst hout
    simp [SerialState.recv, hne]
  · intro hw hout hcl
    subst hw; subst hout; subst hcl
    rfl
  · intro hw hout hcl
    subst hw; subst hout; subst hcl
    rfl

theorem serial_recv_cases_witness :
    SerialState.recv ⟨true, true⟩ 4 (ReadOut.readBytes [1, 2]) CloseOut.closeOk =
      (RecvRes.value [1, 2], ⟨true, true⟩) :=
  (serial_recv_cases ⟨true, true⟩ 4 (ReadOut.readBytes [1, 2]) CloseOut.closeOk rfl).2.1
    [1, 2] rfl (by decide) (by decide) rfl

/-- C6: `Serial.disconnect` is idempotent: when the channel is already
disconnected it is a no-op (nothing is closed, nothing raises); otherwise
it closes the connection and unconditionally resets the state to
disconnected — reader and writer both cleared — even if the close itself
raises; and a second `disconnect` right after the first is again a safe
no-op, with `is_connected` false after each of the two calls. -/
theorem serial_disconnect_idempotent (st : SerialState) (cl cl2 : CloseOut) :
    (st.w = false → st.disconnect cl = (false, st)) ∧
    (st.w = true → (st.disconnect cl).2 = ⟨false, false⟩) ∧
    (st.disconnect cl).2.is_connected = false ∧
    ((st.disconnect cl).2.disconnect cl2 = (false, (st.disconnect cl).2)) ∧
    ((st.disconnect cl).2.disconnect cl2).2.is_connected = false := by
  obtain ⟨r, w⟩ := st
  cases r <;> cases w <;> cases cl <;> cases cl2 <;> refine ⟨?_, ?_, ?_, ?_, ?_⟩ <;>
    first
    | (intro h; first | rfl | exact absurd h (by decide))
    | rfl

theorem serial_disconnect_idempotent_witness :
    (SerialState.disconnect ⟨true, true⟩ CloseOut.closeOk).2 = ⟨false, false⟩ :=
  (serial_disconnect_idempotent ⟨true, true⟩ CloseOut.closeOk CloseOut.closeOk).2.1 rfl

/-! ## Command serializer -/

/-- Reachability invariant of the command scheduler: a task anywhere
inside the `async with self._cmd_lock` block (acquired, not yet released)
is the lock owner, and no program counter passes the end of the program. -/
def cmdInv (s : CmdState) : Prop :=
  (∀ i, 1 ≤ s.pc i → s.pc i ≤ 5 → s.owner = some i) ∧ (∀ i, s.pc i ≤ 6)

theorem cmdReach_inv {s : CmdState} (h : cmdReach s) : cmdInv s := by
  induction h with
  | init =>
    exact ⟨fun i h1 h5 => by simp [cmdInit] at h1, fun i => by simp [cmdInit]⟩
  | step _ hs ih =>
    cases hs with
    | acquire i h0 hown =>
      constructor
      · intro k h1 h5
        dsimp only at h1 h5 ⊢
        by_cases hk : k = i
        · simp [hk]
        · rw [if_neg hk] at h1 h5
          have hko := ih.1 k h1 h5
          rw [hown] at hko
          exact absurd hko (by simp)
      · intro k
        dsimp only
        by_cases hk : k = i
        · simp [hk]
        · rw [if_neg hk]
          exact ih.2 k
    | advance i h1 h4 =>
      constructor
      · intro k hk1 hk5
        dsimp only at hk1 hk5 ⊢
        by_cases hk : k = i
        · rw [hk]
          exact ih.1 i h1 (by omega)
        · rw [if_neg hk] at hk1 hk5
          exact ih.1 k hk1 hk5
      · intro k
        dsimp only
        by_cases hk : k = i
        · rw [if_pos hk]
          have := ih.2 i
          omega
        · rw [if_neg hk]
          exact ih.2 k
    | release i h5 hown =>
      constructor
      · intro k hk1 hk5
        dsimp only at hk1 hk5 ⊢
        by_cases hk : k = i
        · rw [if_pos hk] at hk5
          omega
        · rw [if_neg hk] at hk1 hk5
          have hko := ih.1 k hk1 hk5
          rw [hown] at hko
          have hik : i = k := by injection hko
          exact absurd hik.symm hk
      · intro k
        dsimp only
        by_cases hk : k = i
        · rw [if_pos hk]
        · rw [if_neg hk]
          exact ih.2 k

/-- C4: command-channel operations (`raw_command`, `raw_request`,
`getdevices`) on one `GC100` instance are serialized by `_cmd_lock`: in
every reachable scheduler state, while task `i` holds an open command-port
connection (`pc i ∈ {2, 3}`), every other task `j` either has not yet
entered its critical section (`pc j = 0`, so it has not opened its
connection) or has fully finished — connection closed, cool-down elapsed
and lock released (`pc j = 6`); in particular no two command-port sockets
are ever open simultaneously. -/
theorem cmd_serializer_exclusive (s : CmdState) (i j : Nat)
    (hr : cmdReach s) (hopen : connOpen s i) (hij : j ≠ i) :
    (s.pc j = 0 ∨ s.pc j = 6) ∧ ¬ connOpen s j := by
  have inv := cmdReach_inv hr
  have howner : s.owner = some i := by
    rcases hopen with h | h
    · exact inv.1 i (by omega) (by omega)
    · exact inv.1 i (by omega) (by omega)
  have hj : s.pc j = 0 ∨ s.pc j = 6 := by
    by_contra hcon
    push_neg at hcon
    have hb := inv.2 j
    have h1 : 1 ≤ s.pc j := by omega
    have h5 : s.pc j ≤ 5 := by omega
    have hoj := inv.1 j h1 h5
    rw [howner] at hoj
    have : i = j := by injection hoj
    exact hij this.symm
  refine ⟨hj, fun hcj => ?_⟩
  rcases hcj with h | h <;> rcases hj with h0 | h0 <;> omega

/-- A state in which task 0 has acquired the lock and just opened its
command-port connection, while task 1 has not started. -/
def cmdExample1 : CmdState := ⟨fun k => if k = 0 then 1 else cmdInit.pc k, some 0⟩

def cmdExample2 : CmdState :=
  ⟨fun k => if k = 0 then cmdExample1.pc 0 + 1 else cmdExample1.pc k, cmdExample1.owner⟩

theorem cmd_serializer_exclusive_witness :
    (cmdExample2.pc 1 = 0 ∨ cmdExample2.pc 1 = 6) ∧ ¬ connOpen cmdExample2 1 :=
  cmd_serializer_exclusive cmdExample2 0 1
    (cmdReach.step (cmdReach.step cmdReach.init (cmdStep.acquire cmdInit 0 rfl rfl))
      (cmdStep.advance cmdExample1 0 (by decide) (by decide)))
    (Or.inl rfl) (by decide)
